import Mathlib

/-!
# RC3200 VM, Color Display Adapter (src/CDA.hpp)

A shallow embedding of the `vm::cda::CDA` device: its two address handlers
(`VideoRAM`, `SETUPreg`), the `Tick` operation and the accessors, followed by
the theorems that settle the specification's claims about them.

Conventions of the embedding:
* `dword_t` and `unsigned` are naturals reduced modulo `2^32` wherever the code
  does arithmetic on them; `byte_t` is a natural reduced modulo `256` where a
  value enters a `byte_t` parameter;
* the heap buffers `vram` and `obuffer` are lists of bytes; the device
  invariant `CDA.WF` records that both hold `VRAM_SIZE` bytes, as allocated by
  the constructors;
* `assert` is active: a failed assertion ends the call with `Fault.assertion`.
-/

namespace vm
namespace cda

/-! ## Constants and tables (CDA.hpp, lines 26 to 40) -/

/-- Vertical refresh frecuency. -/
def VSYNC : Nat := 25

/-- VRAM size. -/
def VRAM_SIZE : Nat := 0x4400

/-- SETUP register offset. -/
def SETUP_OFFSET : Nat := 0xCC00

/-- Interrupt message value. -/
def INT_MSG : List Nat := [0x0000005A, 0x0000105A, 0x0000205A, 0x0000305A]

/-- VRAM base address. -/
def BASE_ADDR : List Nat := [0xFF0A0000, 0xFF0B0000, 0xFF0C0000, 0xFF0D0000]

/-! ## Machine arithmetic -/

/-- Addition of two 32-bit unsigned values (`a += b`). -/
def add32 (a b : Nat) : Nat := (a + b) % 2 ^ 32

/-- Subtraction of two 32-bit unsigned values (`a -= b`), wrapping below zero. -/
def sub32 (a b : Nat) : Nat := (a % 2 ^ 32 + (2 ^ 32 - b % 2 ^ 32)) % 2 ^ 32

/-- The call `std::copy_n(src, n, dst)`: the first `n` bytes of `dst` are replaced by
the first `n` bytes of `src`. -/
def copy_n (src : List Nat) (n : Nat) (dst : List Nat) : List Nat :=
  src.take n ++ dst.drop n

/-! ## Collaborators that are not part of CDA.hpp -/

/-- Modelled from the spec: the class `cpu::RC3200` is declared outside CDA.hpp. The
device consumes a clock-rate accessor (`Clock()`) and an interrupt capability
accepting a 32-bit message value (`ThrowInterrupt`); the messages thrown are
recorded, oldest first, in `interrupts`. -/
structure RC3200 where
  clock : Nat
  interrupts : List Nat
  deriving DecidableEq, Repr

/-- Modelled from the spec: the clock-rate accessor of the CPU. -/
def RC3200.Clock (cpu : RC3200) : Nat := cpu.clock

/-- Modelled from the spec: the interrupt capability of the CPU; it receives one
32-bit message. -/
def RC3200.ThrowInterrupt (cpu : RC3200) (msg : Nat) : RC3200 :=
  { cpu with interrupts := cpu.interrupts ++ [msg % 2 ^ 32] }

/-- The outcome of a failed `assert`. -/
inductive Fault where
  | assertion
  deriving DecidableEq, Repr

/-! ## Data model (CDA.hpp, lines 123 to 197) -/

/-- Address Handler that manages the VideoRAM: the window `begin`, `size` inherited
from `ram::AHandler` and the live buffer `vram`. -/
structure CDA.VideoRAM where
  begin : Nat
  size : Nat
  vram : List Nat
  deriving DecidableEq, Repr

/-- Address block that manages the SETUP register: the window `begin`, `size`
inherited from `ram::AHandler` and the register byte `reg`. -/
structure CDA.SETUPreg where
  begin : Nat
  size : Nat
  reg : Nat
  deriving DecidableEq, Repr

/-- The device. `jmp1` is the value returned by `IDevice::Jmp1()`, which is declared
outside CDA.hpp. -/
structure CDA where
  jmp1 : Nat
  count : Nat
  videomode : Nat
  textmode : Bool
  blink : Bool
  userfont : Bool
  e_vsync : Bool
  vram : CDA.VideoRAM
  setupr : CDA.SETUPreg
  obuffer : List Nat
  deriving DecidableEq, Repr

namespace CDA

/-- Constructor `VideoRAM(CDA* cda)`. -/
def VideoRAM.new (jmp1 : Nat) : CDA.VideoRAM :=
  { begin := BASE_ADDR.getD (jmp1 &&& 3) 0
    size := VRAM_SIZE
    vram := List.replicate VRAM_SIZE 0 }

/-- Constructor `SETUPreg(CDA* cda)`. The member `reg` has no initialiser, so its
first value `reg0` is whatever byte the storage holds. -/
def SETUPreg.new (jmp1 reg0 : Nat) : CDA.SETUPreg :=
  { begin := add32 (BASE_ADDR.getD (jmp1 &&& 3) 0) SETUP_OFFSET
    size := 1
    reg := reg0 % 256 }

/-- Constructor `CDA()`, for a device whose `Jmp1()` returns `jmp1`. -/
def new (jmp1 reg0 : Nat) : CDA :=
  { jmp1 := jmp1
    count := 0
    videomode := 0
    textmode := true
    blink := false
    userfont := false
    e_vsync := false
    vram := VideoRAM.new jmp1
    setupr := SETUPreg.new jmp1 reg0
    obuffer := List.replicate VRAM_SIZE 0 }

/-- The state established by the constructors and kept by every operation: the two
windows are those of the slot `Jmp1() & 3`, and both buffers hold `VRAM_SIZE`
bytes. -/
def WF (d : CDA) : Prop :=
  d.vram.begin = BASE_ADDR.getD (d.jmp1 &&& 3) 0 ∧
  d.vram.size = VRAM_SIZE ∧
  d.vram.vram.length = VRAM_SIZE ∧
  d.setupr.begin = add32 (BASE_ADDR.getD (d.jmp1 &&& 3) 0) SETUP_OFFSET ∧
  d.setupr.size = 1 ∧
  d.obuffer.length = VRAM_SIZE

instance (d : CDA) : Decidable d.WF := by
  unfold WF
  infer_instance

/-! ## Accessors (CDA.hpp, lines 85 to 115) -/

/-- Video RAM buffer. -/
def VRAM (d : CDA) : List Nat := d.obuffer

/-- Actual videomode. -/
def VideoMode (d : CDA) : Nat := d.videomode

/-- Is using a Text Videomode ? -/
def isTextMode (d : CDA) : Bool := d.textmode

/-- Bright background color attribute is blink, for Text videomode ? -/
def isBlinkAttr (d : CDA) : Bool := d.blink

/-- Is using User defined font in a Text videomode ? -/
def isUserFont (d : CDA) : Bool := d.userfont

/-! ## Address handlers (CDA.hpp, lines 137 to 179) -/

/-- Method `VideoRAM::RB`. The second assertion, `addr >= 0`, holds of every unsigned
value. -/
def VideoRAM.RB (d : CDA) (addr : Nat) : Except Fault (Nat × CDA) :=
  let addr := sub32 addr d.vram.begin
  if addr < d.vram.size then
    .ok (d.vram.vram.getD addr 0, d)
  else
    .error Fault.assertion

/-- Method `VideoRAM::WB`; `val` enters as a `byte_t`. As in `RB`, the assertion
`addr >= 0` holds of every unsigned value. -/
def VideoRAM.WB (d : CDA) (addr val : Nat) : Except Fault CDA :=
  let val := val % 256
  let addr := sub32 addr d.vram.begin
  if addr < d.vram.size then
    .ok { d with vram := { d.vram with vram := d.vram.vram.set addr val } }
  else
    .error Fault.assertion

/-- Method `SETUPreg::RB`. The address is not looked at. -/
def SETUPreg.RB (d : CDA) (_addr : Nat) : Except Fault (Nat × CDA) :=
  .ok (d.setupr.reg, d)

/-- Method `SETUPreg::WB`; `val` enters as a `byte_t`. The address is not looked
at. -/
def SETUPreg.WB (d : CDA) (_addr val : Nat) : Except Fault CDA :=
  let val := val % 256
  .ok { d with
    setupr := { d.setupr with reg := val }
    videomode := val &&& 3
    textmode := decide (val &&& 4 = 0) }

/-! ## Tick (CDA.hpp, lines 59 to 72) -/

/-- The test `count >= (cpu.Clock()/VSYNC)` of `Tick`, taken after `count += n`: the
V-Sync event. -/
def vsyncEvent (d : CDA) (cpu : RC3200) (n : Nat) : Bool :=
  decide (add32 d.count n ≥ cpu.Clock / VSYNC)

/-- Method `CDA::Tick`. -/
def Tick (d : CDA) (cpu : RC3200) (n : Nat) : CDA × RC3200 :=
  let count := add32 d.count n
  if count ≥ cpu.Clock / VSYNC then
    let d1 : CDA :=
      { d with
        count := sub32 count (cpu.Clock / VSYNC)
        obuffer := copy_n d.vram.vram VRAM_SIZE d.obuffer }
    if d1.e_vsync then
      (d1, cpu.ThrowInterrupt (INT_MSG.getD (d1.jmp1 &&& 3) 0))
    else
      (d1, cpu)
  else
    ({ d with count := count }, cpu)

/-! ## Sequences of operations -/

/-- One call made on the device by its environment: `Tick` by the CPU driver, whose
clock is `clk` at that moment, and the four bus accesses. -/
inductive Op where
  | tick (clk n : Nat)
  | vramRB (addr : Nat)
  | vramWB (addr val : Nat)
  | setupRB (addr : Nat)
  | setupWB (addr val : Nat)
  deriving DecidableEq, Repr

/-- One call on the device; `log` holds the interrupt messages thrown so far. A failed
assertion ends the run. -/
def step (s : CDA × List Nat) : Op → Except Fault (CDA × List Nat)
  | .tick clk n =>
    let r := Tick s.1 { clock := clk, interrupts := s.2 } n
    .ok (r.1, r.2.interrupts)
  | .vramRB addr => (VideoRAM.RB s.1 addr).map fun r => (r.2, s.2)
  | .vramWB addr val => (VideoRAM.WB s.1 addr val).map fun d => (d, s.2)
  | .setupRB addr => (SETUPreg.RB s.1 addr).map fun r => (r.2, s.2)
  | .setupWB addr val => (SETUPreg.WB s.1 addr val).map fun d => (d, s.2)

/-- The calls of `ops` made in turn. -/
def run (s : CDA × List Nat) : List Op → Except Fault (CDA × List Nat)
  | [] => .ok s
  | op :: ops =>
    match step s op with
    | .ok s1 => run s1 ops
    | .error e => .error e

/-- Whether the call `op`, made in state `s`, is a `Tick` that takes the V-Sync
branch. -/
def crosses (s : CDA × List Nat) : Op → Bool
  | .tick clk n => vsyncEvent s.1 { clock := clk, interrupts := s.2 } n
  | _ => false

/-- The number of calls of `ops` that take the V-Sync branch of `Tick`, up to the
first failed assertion if there is one. -/
def crossCount (s : CDA × List Nat) : List Op → Nat
  | [] => 0
  | op :: ops =>
    match step s op with
    | .ok s1 => (if crosses s op then 1 else 0) + crossCount s1 ops
    | .error _ => 0

/-- The calls `Tick(n1)`, ..., `Tick(nk)` made in turn with one CPU. -/
def tickSeq (d : CDA) (cpu : RC3200) : List Nat → CDA × RC3200
  | [] => (d, cpu)
  | n :: ns => tickSeq (Tick d cpu n).1 (Tick d cpu n).2 ns

/-- The number of calls among `Tick(n1)`, ..., `Tick(nk)` that take the V-Sync
branch, that is, the number of snapshot copies made. -/
def tickCrossings (d : CDA) (cpu : RC3200) : List Nat → Nat
  | [] => 0
  | n :: ns =>
    (if vsyncEvent d cpu n then 1 else 0) + tickCrossings (Tick d cpu n).1 (Tick d cpu n).2 ns

/-- The number of interrupts thrown by the calls `Tick(n1)`, ..., `Tick(nk)`. -/
def tickInterrupts (d : CDA) (cpu : RC3200) (ns : List Nat) : Nat :=
  (tickSeq d cpu ns).2.interrupts.length - cpu.interrupts.length

/-- Whether every `Tick` of `ops` is made with the clock `clk` and with a step of at
most one period, `clk / VSYNC`. -/
def smallSteps (clk : Nat) (ops : List Op) : Bool :=
  ops.all fun op =>
    match op with
    | .tick c n => decide (c = clk ∧ n ≤ clk / VSYNC)
    | _ => true

/-- The address `addr` lies in the window `[begin, begin + size)` of an address
handler. -/
def inWindow (begin size addr : Nat) : Prop :=
  begin ≤ addr ∧ addr < begin + size

instance (begin size addr : Nat) : Decidable (inWindow begin size addr) := by
  unfold inWindow
  infer_instance

end CDA

/-! ## Basic facts -/

theorem slot_lt (j : Nat) : j &&& 3 < 4 :=
  Nat.lt_succ_of_le Nat.and_le_right

theorem INT_MSG_lt (j : Nat) : INT_MSG.getD (j &&& 3) 0 < 2 ^ 32 := by
  have h := slot_lt j
  generalize j &&& 3 = s at h
  interval_cases s <;> decide

theorem BASE_ADDR_lt (j : Nat) : BASE_ADDR.getD (j &&& 3) 0 + 0x10000 ≤ 2 ^ 32 := by
  have h := slot_lt j
  generalize j &&& 3 = s at h
  interval_cases s <;> decide

theorem BASE_ADDR_ge (j : Nat) : 0xFF0A0000 ≤ BASE_ADDR.getD (j &&& 3) 0 := by
  have h := slot_lt j
  generalize j &&& 3 = s at h
  interval_cases s <;> decide

theorem sub32_of_le {a b : Nat} (hb : b ≤ a) (ha : a < 2 ^ 32) : sub32 a b = a - b := by
  unfold sub32
  omega

theorem sub32_lt (a b : Nat) : sub32 a b < 2 ^ 32 := by
  unfold sub32
  omega

theorem add32_lt (a b : Nat) : add32 a b < 2 ^ 32 := by
  unfold add32
  omega

theorem copy_n_full {src dst : List Nat} {n : Nat} (hs : src.length = n)
    (hd : dst.length = n) : copy_n src n dst = src := by
  unfold copy_n
  rw [List.take_of_length_le (le_of_eq hs), List.drop_of_length_le (le_of_eq hd),
    List.append_nil]

theorem ThrowInterrupt_INT_MSG (cpu : RC3200) (j : Nat) :
    (cpu.ThrowInterrupt (INT_MSG.getD (j &&& 3) 0)).interrupts =
      cpu.interrupts ++ [INT_MSG.getD (j &&& 3) 0] := by
  unfold RC3200.ThrowInterrupt
  rw [Nat.mod_eq_of_lt (INT_MSG_lt j)]

theorem WF_new (jmp1 reg0 : Nat) : (CDA.new jmp1 reg0).WF := by
  simp [CDA.WF, CDA.new, CDA.VideoRAM.new, CDA.SETUPreg.new]

/-! ## Tick, case by case -/

theorem Tick_cross {d : CDA} {cpu : RC3200} {n : Nat}
    (h : cpu.Clock / VSYNC ≤ add32 d.count n) :
    CDA.Tick d cpu n =
      ({ d with
          count := sub32 (add32 d.count n) (cpu.Clock / VSYNC)
          obuffer := copy_n d.vram.vram VRAM_SIZE d.obuffer },
        if d.e_vsync then cpu.ThrowInterrupt (INT_MSG.getD (d.jmp1 &&& 3) 0) else cpu) := by
  unfold CDA.Tick
  simp only [ge_iff_le, h, if_true]
  split <;> rfl

theorem Tick_no_cross {d : CDA} {cpu : RC3200} {n : Nat}
    (h : ¬ cpu.Clock / VSYNC ≤ add32 d.count n) :
    CDA.Tick d cpu n = ({ d with count := add32 d.count n }, cpu) := by
  unfold CDA.Tick
  simp only [ge_iff_le, h, if_false]

theorem Tick_count (d : CDA) (cpu : RC3200) (n : Nat) :
    (CDA.Tick d cpu n).1.count =
      if cpu.Clock / 25 ≤ add32 d.count n then sub32 (add32 d.count n) (cpu.Clock / 25)
      else add32 d.count n := by
  by_cases h : cpu.Clock / 25 ≤ add32 d.count n
  · rw [Tick_cross h, if_pos h]
    rfl
  · rw [Tick_no_cross h, if_neg h]

theorem Tick_Clock (d : CDA) (cpu : RC3200) (n : Nat) :
    (CDA.Tick d cpu n).2.Clock = cpu.Clock := by
  by_cases h : cpu.Clock / VSYNC ≤ add32 d.count n
  · rw [Tick_cross h]
    by_cases he : d.e_vsync = true
    · rw [if_pos he]
      rfl
    · rw [if_neg he]
  · rw [Tick_no_cross h]

theorem Tick_e_vsync (d : CDA) (cpu : RC3200) (n : Nat) :
    (CDA.Tick d cpu n).1.e_vsync = d.e_vsync := by
  by_cases h : cpu.Clock / VSYNC ≤ add32 d.count n
  · rw [Tick_cross h]
  · rw [Tick_no_cross h]

theorem vsyncEvent_iff (d : CDA) (cpu : RC3200) (n : Nat) :
    CDA.vsyncEvent d cpu n = true ↔ cpu.Clock / 25 ≤ add32 d.count n := by
  unfold CDA.vsyncEvent
  exact decide_eq_true_iff

theorem Tick_interrupts_length (d : CDA) (cpu : RC3200) (n : Nat) :
    (CDA.Tick d cpu n).2.interrupts.length =
      cpu.interrupts.length +
        (if d.e_vsync = true then (if CDA.vsyncEvent d cpu n = true then 1 else 0) else 0) := by
  by_cases h : cpu.Clock / VSYNC ≤ add32 d.count n
  · rw [Tick_cross h, if_pos ((vsyncEvent_iff d cpu n).2 h)]
    by_cases he : d.e_vsync = true
    · rw [if_pos he, if_pos he, ThrowInterrupt_INT_MSG, List.length_append]
      rfl
    · rw [if_neg he, if_neg he]
      rfl
  · rw [Tick_no_cross h, if_neg (fun hc => h ((vsyncEvent_iff d cpu n).1 hc))]
    by_cases he : d.e_vsync = true
    · rw [if_pos he]
      rfl
    · rw [if_neg he]
      rfl

/-! ## Sequences of Tick calls -/

theorem tickCrossings_cons (d : CDA) (cpu : RC3200) (n : Nat) (ns : List Nat) :
    CDA.tickCrossings d cpu (n :: ns) =
      (if CDA.vsyncEvent d cpu n = true then 1 else 0) +
        CDA.tickCrossings (CDA.Tick d cpu n).1 (CDA.Tick d cpu n).2 ns := rfl

theorem tickSeq_cons (d : CDA) (cpu : RC3200) (n : Nat) (ns : List Nat) :
    CDA.tickSeq d cpu (n :: ns) =
      CDA.tickSeq (CDA.Tick d cpu n).1 (CDA.Tick d cpu n).2 ns := rfl

/-- While the counter starts below the threshold and the steps add up to less than
two periods from the start of the first one, the calls make one snapshot exactly when
the total reaches the threshold. -/
theorem tickCrossings_in_phase (ns : List Nat) :
    ∀ (d : CDA) (cpu : RC3200), cpu.Clock < 2 ^ 32 → d.count < cpu.Clock / 25 →
      d.count + ns.sum < 2 * (cpu.Clock / 25) →
      CDA.tickCrossings d cpu ns = if cpu.Clock / 25 ≤ d.count + ns.sum then 1 else 0 := by
  induction ns with
  | nil =>
    intro d cpu _ h1 _
    rw [List.sum_nil, if_neg (by omega)]
    rfl
  | cons n rest ih =>
    intro d cpu hclk h1 h2
    rw [List.sum_cons] at h2 ⊢
    have hcnt := Tick_count d cpu n
    have ih1 := ih (CDA.Tick d cpu n).1 (CDA.Tick d cpu n).2
    rw [Tick_Clock] at ih1
    have hadd : add32 d.count n = d.count + n := by
      unfold add32
      omega
    rw [tickCrossings_cons]
    by_cases hx : cpu.Clock / 25 ≤ add32 d.count n
    · rw [if_pos hx, hadd, sub32_of_le (by omega) (by omega)] at hcnt
      rw [if_pos ((vsyncEvent_iff d cpu n).2 hx), ih1 hclk (by omega) (by omega),
        if_neg (by omega), if_pos (by omega)]
    · rw [if_neg hx, hadd] at hcnt
      rw [if_neg (fun hc => hx ((vsyncEvent_iff d cpu n).1 hc)),
        ih1 hclk (by omega) (by omega), hcnt, Nat.zero_add, Nat.add_assoc]

/-- The interrupts thrown by a sequence of calls are its snapshots when `e_vsync` is
set, and none otherwise. -/
theorem tickSeq_interrupts_length (ns : List Nat) :
    ∀ (d : CDA) (cpu : RC3200),
      (CDA.tickSeq d cpu ns).2.interrupts.length =
        cpu.interrupts.length + (if d.e_vsync = true then CDA.tickCrossings d cpu ns else 0) := by
  induction ns with
  | nil =>
    intro d cpu
    by_cases he : d.e_vsync = true
    · rw [if_pos he]
      rfl
    · rw [if_neg he]
      rfl
  | cons n rest ih =>
    intro d cpu
    rw [tickSeq_cons, ih, Tick_interrupts_length, Tick_e_vsync, tickCrossings_cons]
    by_cases he : d.e_vsync = true
    · rw [if_pos he, if_pos he, if_pos he, Nat.add_assoc]
    · rw [if_neg he, if_neg he, if_neg he]

theorem tickInterrupts_eq (d : CDA) (cpu : RC3200) (ns : List Nat) :
    CDA.tickInterrupts d cpu ns =
      if d.e_vsync = true then CDA.tickCrossings d cpu ns else 0 := by
  unfold CDA.tickInterrupts
  rw [tickSeq_interrupts_length]
  omega

/-! ## The VideoRAM window -/

theorem sub32_window (b : Nat) {k : Nat} (hk : k < 0x4400) :
    sub32 (b + k) b = k := by
  unfold sub32
  omega

theorem VideoRAM_WB_ok {d : CDA} {addr : Nat} (val : Nat)
    (h : sub32 addr d.vram.begin < d.vram.size) :
    CDA.VideoRAM.WB d addr val =
      .ok { d with vram := { d.vram with
              vram := d.vram.vram.set (sub32 addr d.vram.begin) (val % 256) } } := by
  unfold CDA.VideoRAM.WB
  simp only [h, if_true]

theorem VideoRAM_RB_ok {d : CDA} {addr : Nat} (h : sub32 addr d.vram.begin < d.vram.size) :
    CDA.VideoRAM.RB d addr = .ok (d.vram.vram.getD (sub32 addr d.vram.begin) 0, d) := by
  unfold CDA.VideoRAM.RB
  simp only [h, if_true]

theorem VideoRAM_RB_fault {d : CDA} {addr : Nat}
    (h : ¬ sub32 addr d.vram.begin < d.vram.size) :
    CDA.VideoRAM.RB d addr = .error Fault.assertion := by
  unfold CDA.VideoRAM.RB
  simp only [h, if_false]

theorem VideoRAM_WB_fault {d : CDA} {addr : Nat} (val : Nat)
    (h : ¬ sub32 addr d.vram.begin < d.vram.size) :
    CDA.VideoRAM.WB d addr val = .error Fault.assertion := by
  unfold CDA.VideoRAM.WB
  simp only [h, if_false]

/-- The VideoRAM handler rejects the two addresses next to its window: the assertion
of `RB` and of `WB` fails at `begin - 1` and at `begin + size`. -/
theorem VideoRAM_rejects_outside (d : CDA) (val : Nat) (hwf : d.WF) :
    CDA.VideoRAM.RB d (sub32 d.vram.begin 1) = .error Fault.assertion ∧
    CDA.VideoRAM.RB d (add32 d.vram.begin d.vram.size) = .error Fault.assertion ∧
    CDA.VideoRAM.WB d (sub32 d.vram.begin 1) val = .error Fault.assertion ∧
    CDA.VideoRAM.WB d (add32 d.vram.begin d.vram.size) val = .error Fault.assertion := by
  obtain ⟨hb, hs, -, -, -, -⟩ := hwf
  have h1 := BASE_ADDR_lt d.jmp1
  have h2 := BASE_ADDR_ge d.jmp1
  rw [← hb] at h1 h2
  have e1 : ¬ sub32 (sub32 d.vram.begin 1) d.vram.begin < d.vram.size := by
    rw [hs]
    unfold sub32 VRAM_SIZE
    omega
  have e2 : ¬ sub32 (add32 d.vram.begin d.vram.size) d.vram.begin < d.vram.size := by
    rw [hs]
    unfold sub32 add32 VRAM_SIZE
    omega
  exact ⟨VideoRAM_RB_fault e1, VideoRAM_RB_fault e2, VideoRAM_WB_fault val e1,
    VideoRAM_WB_fault val e2⟩

/-! ## The device invariant and the exposed buffer along a run -/

theorem Tick_WF {d : CDA} (cpu : RC3200) (n : Nat) (hwf : d.WF) :
    (CDA.Tick d cpu n).1.WF := by
  obtain ⟨hb, hs, hv, hsb, hss, ho⟩ := hwf
  by_cases h : cpu.Clock / VSYNC ≤ add32 d.count n
  · rw [Tick_cross h]
    refine ⟨hb, hs, hv, hsb, hss, ?_⟩
    show (copy_n d.vram.vram VRAM_SIZE d.obuffer).length = VRAM_SIZE
    rw [copy_n_full hv ho]
    exact hv
  · rw [Tick_no_cross h]
    exact ⟨hb, hs, hv, hsb, hss, ho⟩

theorem Tick_obuffer_cross {d : CDA} (cpu : RC3200) (n : Nat) (hwf : d.WF)
    (h : CDA.vsyncEvent d cpu n = true) : (CDA.Tick d cpu n).1.obuffer = d.vram.vram := by
  rw [Tick_cross ((vsyncEvent_iff d cpu n).1 h)]
  exact copy_n_full hwf.2.2.1 hwf.2.2.2.2.2

theorem Tick_obuffer_no_cross {d : CDA} (cpu : RC3200) (n : Nat)
    (h : ¬ CDA.vsyncEvent d cpu n = true) : (CDA.Tick d cpu n).1.obuffer = d.obuffer := by
  rw [Tick_no_cross (fun hc => h ((vsyncEvent_iff d cpu n).2 hc))]

theorem VideoRAM_WB_frame {d d1 : CDA} {addr val : Nat}
    (h : CDA.VideoRAM.WB d addr val = .ok d1) (hwf : d.WF) :
    d1.WF ∧ d1.obuffer = d.obuffer := by
  obtain ⟨hb, hs, hv, hsb, hss, ho⟩ := hwf
  by_cases hlt : sub32 addr d.vram.begin < d.vram.size
  · rw [VideoRAM_WB_ok val hlt] at h
    have e := Except.ok.inj h
    subst e
    refine ⟨⟨hb, hs, ?_, hsb, hss, ho⟩, rfl⟩
    show (d.vram.vram.set _ _).length = VRAM_SIZE
    rw [List.length_set]
    exact hv
  · rw [VideoRAM_WB_fault val hlt] at h
    cases h

theorem VideoRAM_RB_frame {d : CDA} {addr : Nat} {r : Nat × CDA}
    (h : CDA.VideoRAM.RB d addr = .ok r) : r.2 = d := by
  by_cases hlt : sub32 addr d.vram.begin < d.vram.size
  · rw [VideoRAM_RB_ok hlt] at h
    have e := Except.ok.inj h
    subst e
    rfl
  · rw [VideoRAM_RB_fault hlt] at h
    cases h

theorem SETUPreg_WB_frame {d d1 : CDA} {addr val : Nat}
    (h : CDA.SETUPreg.WB d addr val = .ok d1) (hwf : d.WF) :
    d1.WF ∧ d1.obuffer = d.obuffer := by
  have e := Except.ok.inj h
  subst e
  exact ⟨hwf, rfl⟩

theorem map_ok {α β : Type} {f : α → β} {x : Except Fault α} {b : β}
    (h : x.map f = .ok b) : ∃ a, x = .ok a ∧ f a = b := by
  cases x with
  | error e => cases h
  | ok a => exact ⟨a, rfl, Except.ok.inj h⟩

/-- One successful call keeps the invariant; it replaces the exposed buffer by the
live buffer when it is a `Tick` taking the V-Sync branch, and leaves the exposed
buffer alone otherwise. -/
theorem step_frame {s s1 : CDA × List Nat} {op : CDA.Op} (h : CDA.step s op = .ok s1)
    (hwf : s.1.WF) :
    s1.1.WF ∧ (CDA.crosses s op = true → s1.1.obuffer = s.1.vram.vram) ∧
      (¬ CDA.crosses s op = true → s1.1.obuffer = s.1.obuffer) := by
  cases op with
  | tick clk n =>
    have e := Except.ok.inj h
    subst e
    exact ⟨Tick_WF _ n hwf, fun hc => Tick_obuffer_cross _ n hwf hc,
      fun hc => Tick_obuffer_no_cross _ n hc⟩
  | vramRB addr =>
    obtain ⟨r, hr, e⟩ := map_ok h
    subst e
    have e1 := VideoRAM_RB_frame hr
    refine ⟨?_, fun hc => Bool.noConfusion hc, fun _ => ?_⟩
    · show r.2.WF
      rw [e1]
      exact hwf
    · show r.2.obuffer = _
      rw [e1]
  | vramWB addr val =>
    obtain ⟨r, hr, e⟩ := map_ok h
    subst e
    exact ⟨(VideoRAM_WB_frame hr hwf).1, fun hc => Bool.noConfusion hc,
      fun _ => (VideoRAM_WB_frame hr hwf).2⟩
  | setupRB addr =>
    have e := Except.ok.inj h
    subst e
    exact ⟨hwf, fun hc => Bool.noConfusion hc, fun _ => rfl⟩
  | setupWB addr val =>
    have h1 : (CDA.SETUPreg.WB s.1 addr val).map (fun d => (d, s.2)) = .ok s1 := h
    obtain ⟨r, hr, e⟩ := map_ok h1
    subst e
    exact ⟨(SETUPreg_WB_frame hr hwf).1, fun hc => Bool.noConfusion hc,
      fun _ => (SETUPreg_WB_frame hr hwf).2⟩

theorem crosses_tick {s : CDA × List Nat} {op : CDA.Op} (h : CDA.crosses s op = true) :
    ∃ clk n, op = CDA.Op.tick clk n ∧
      CDA.vsyncEvent s.1 { clock := clk, interrupts := s.2 } n = true := by
  cases op with
  | tick clk n => exact ⟨clk, n, rfl, h⟩
  | vramRB addr => exact Bool.noConfusion h
  | vramWB addr val => exact Bool.noConfusion h
  | setupRB addr => exact Bool.noConfusion h
  | setupWB addr val => exact Bool.noConfusion h

theorem run_cons_ok {s s1 : CDA × List Nat} {op : CDA.Op} (ops : List CDA.Op)
    (h : CDA.step s op = .ok s1) : CDA.run s (op :: ops) = CDA.run s1 ops := by
  show (match CDA.step s op with
    | .ok s1 => CDA.run s1 ops
    | .error e => .error e) = _
  rw [h]

theorem crossCount_cons_ok {s s1 : CDA × List Nat} {op : CDA.Op} (ops : List CDA.Op)
    (h : CDA.step s op = .ok s1) :
    CDA.crossCount s (op :: ops) =
      (if CDA.crosses s op = true then 1 else 0) + CDA.crossCount s1 ops := by
  show (match CDA.step s op with
    | .ok s1 => (if CDA.crosses s op = true then 1 else 0) + CDA.crossCount s1 ops
    | .error _ => 0) = _
  rw [h]

/-- From any state that satisfies the invariant: after a run, the exposed buffer is
the one the run started with when no call took the V-Sync branch, and otherwise the
live buffer as it was when the last such call was made. -/
theorem run_obuffer (ops : List CDA.Op) :
    ∀ (s0 : CDA × List Nat) (d : CDA) (log : List Nat), s0.1.WF →
      CDA.run s0 ops = .ok (d, log) →
      (CDA.crossCount s0 ops = 0 ∧ d.obuffer = s0.1.obuffer) ∨
      (∃ pre clk n post d1 log1,
        ops = pre ++ CDA.Op.tick clk n :: post ∧
        CDA.run s0 pre = .ok (d1, log1) ∧
        CDA.vsyncEvent d1 { clock := clk, interrupts := log1 } n = true ∧
        CDA.crossCount
          ((CDA.Tick d1 { clock := clk, interrupts := log1 } n).1,
            (CDA.Tick d1 { clock := clk, interrupts := log1 } n).2.interrupts) post = 0 ∧
        d.obuffer = d1.vram.vram) := by
  induction ops with
  | nil =>
    intro s0 d log _ hrun
    have e := Except.ok.inj hrun
    subst e
    exact Or.inl ⟨rfl, rfl⟩
  | cons op rest ih =>
    intro s0 d log hwf hrun
    cases hstep : CDA.step s0 op with
    | error e =>
      have hr : CDA.run s0 (op :: rest) = .error e := by
        show (match CDA.step s0 op with
          | .ok s1 => CDA.run s1 rest
          | .error e => .error e) = _
        rw [hstep]
      rw [hr] at hrun
      cases hrun
    | ok s1 =>
      obtain ⟨hwf1, hcross, hkeep⟩ := step_frame hstep hwf
      rw [run_cons_ok rest hstep] at hrun
      rcases ih s1 d log hwf1 hrun with ⟨h0, hbuf⟩ | ⟨pre, clk, n, post, d1, log1, e, hpre, hev, hpost, hbuf⟩
      · by_cases hc : CDA.crosses s0 op = true
        · obtain ⟨clk, n, e, hev⟩ := crosses_tick hc
          subst e
          have e1 : s1 = ((CDA.Tick s0.1 { clock := clk, interrupts := s0.2 } n).1,
              (CDA.Tick s0.1 { clock := clk, interrupts := s0.2 } n).2.interrupts) :=
            (Except.ok.inj hstep).symm
          refine Or.inr ⟨[], clk, n, rest, s0.1, s0.2, rfl, rfl, hev, ?_, ?_⟩
          · rw [← e1]
            exact h0
          · rw [hbuf]
            exact hcross hc
        · refine Or.inl ⟨?_, ?_⟩
          · rw [crossCount_cons_ok rest hstep, if_neg hc, h0]
          · rw [hbuf]
            exact hkeep hc
      · refine Or.inr ⟨op :: pre, clk, n, post, d1, log1, ?_, ?_, hev, hpost, hbuf⟩
        · rw [e]
          rfl
        · rw [run_cons_ok pre hstep]
          exact hpre

/-! ## What each operation leaves alone -/

theorem VideoRAM_WB_eq {d d1 : CDA} {addr val : Nat}
    (h : CDA.VideoRAM.WB d addr val = .ok d1) :
    sub32 addr d.vram.begin < d.vram.size ∧
    d1 = { d with vram := { d.vram with
            vram := d.vram.vram.set (sub32 addr d.vram.begin) (val % 256) } } := by
  by_cases hlt : sub32 addr d.vram.begin < d.vram.size
  · rw [VideoRAM_WB_ok val hlt] at h
    exact ⟨hlt, (Except.ok.inj h).symm⟩
  · rw [VideoRAM_WB_fault val hlt] at h
    cases h

theorem Tick_fields (d : CDA) (cpu : RC3200) (n : Nat) :
    (CDA.Tick d cpu n).1.vram = d.vram ∧ (CDA.Tick d cpu n).1.setupr = d.setupr ∧
    (CDA.Tick d cpu n).1.videomode = d.videomode ∧
    (CDA.Tick d cpu n).1.textmode = d.textmode ∧
    (CDA.Tick d cpu n).1.blink = d.blink ∧ (CDA.Tick d cpu n).1.userfont = d.userfont ∧
    (CDA.Tick d cpu n).1.e_vsync = d.e_vsync ∧ (CDA.Tick d cpu n).1.jmp1 = d.jmp1 := by
  by_cases h : cpu.Clock / VSYNC ≤ add32 d.count n
  · rw [Tick_cross h]
    exact ⟨rfl, rfl, rfl, rfl, rfl, rfl, rfl, rfl⟩
  · rw [Tick_no_cross h]
    exact ⟨rfl, rfl, rfl, rfl, rfl, rfl, rfl, rfl⟩

/-! ## The counter and the flags along a run -/

theorem Tick_count_in_period (d : CDA) (cpu : RC3200) (n : Nat)
    (hc : d.count < cpu.Clock / 25) (hn : n ≤ cpu.Clock / 25) :
    (CDA.Tick d cpu n).1.count < cpu.Clock / 25 := by
  have hcnt := Tick_count d cpu n
  have hs := add32_lt d.count n
  by_cases h : cpu.Clock / 25 ≤ add32 d.count n
  · rw [if_pos h, sub32_of_le h hs] at hcnt
    rw [hcnt]
    unfold add32 at h hs ⊢
    omega
  · rw [if_neg h] at hcnt
    rw [hcnt]
    omega

theorem smallSteps_cons (clk : Nat) (op : CDA.Op) (ops : List CDA.Op) :
    CDA.smallSteps clk (op :: ops) =
      ((match op with
        | .tick c n => decide (c = clk ∧ n ≤ clk / VSYNC)
        | _ => true) && CDA.smallSteps clk ops) := by
  unfold CDA.smallSteps
  rw [List.all_cons]

/-- One successful call keeps the three flags that have no write path, and throws
nothing while `e_vsync` is clear. -/
theorem step_flags {s s1 : CDA × List Nat} {op : CDA.Op} (h : CDA.step s op = .ok s1) :
    s1.1.blink = s.1.blink ∧ s1.1.userfont = s.1.userfont ∧
    s1.1.e_vsync = s.1.e_vsync ∧ (s.1.e_vsync = false → s1.2 = s.2) := by
  cases op with
  | tick clk n =>
    have e := Except.ok.inj h
    subst e
    have hf := Tick_fields s.1 { clock := clk, interrupts := s.2 } n
    refine ⟨hf.2.2.2.2.1, hf.2.2.2.2.2.1, hf.2.2.2.2.2.2.1, fun he => ?_⟩
    show (CDA.Tick s.1 { clock := clk, interrupts := s.2 } n).2.interrupts = s.2
    by_cases hx : ({ clock := clk, interrupts := s.2 } : RC3200).Clock / VSYNC ≤
        add32 s.1.count n
    · rw [Tick_cross hx, he]
      rfl
    · rw [Tick_no_cross hx]
  | vramRB addr =>
    obtain ⟨r, hr, e⟩ := map_ok h
    subst e
    have e1 := VideoRAM_RB_frame hr
    refine ⟨?_, ?_, ?_, fun _ => rfl⟩
    · show r.2.blink = _
      rw [e1]
    · show r.2.userfont = _
      rw [e1]
    · show r.2.e_vsync = _
      rw [e1]
  | vramWB addr val =>
    obtain ⟨r, hr, e⟩ := map_ok h
    subst e
    have e1 := (VideoRAM_WB_eq hr).2
    subst e1
    exact ⟨rfl, rfl, rfl, fun _ => rfl⟩
  | setupRB addr =>
    have e := Except.ok.inj h
    subst e
    exact ⟨rfl, rfl, rfl, fun _ => rfl⟩
  | setupWB addr val =>
    have e := Except.ok.inj h
    subst e
    exact ⟨rfl, rfl, rfl, fun _ => rfl⟩

/-- A successful call other than `Tick` keeps the cycle counter. -/
theorem step_count {s s1 : CDA × List Nat} {op : CDA.Op} (h : CDA.step s op = .ok s1)
    (hop : ∀ clk n, op ≠ CDA.Op.tick clk n) : s1.1.count = s.1.count := by
  cases op with
  | tick clk n => exact absurd rfl (hop clk n)
  | vramRB addr =>
    obtain ⟨r, hr, e⟩ := map_ok h
    subst e
    show r.2.count = _
    rw [VideoRAM_RB_frame hr]
  | vramWB addr val =>
    obtain ⟨r, hr, e⟩ := map_ok h
    subst e
    have e1 := (VideoRAM_WB_eq hr).2
    subst e1
    rfl
  | setupRB addr =>
    have e := Except.ok.inj h
    subst e
    rfl
  | setupWB addr val =>
    have e := Except.ok.inj h
    subst e
    rfl

theorem run_error {s : CDA × List Nat} {op : CDA.Op} {e : Fault} (ops : List CDA.Op)
    (h : CDA.step s op = .error e) : CDA.run s (op :: ops) = .error e := by
  show (match CDA.step s op with
    | .ok s1 => CDA.run s1 ops
    | .error e => .error e) = _
  rw [h]

/-- Under a fixed clock and steps of at most one period, a run that starts with the
counter below the threshold ends with the counter below the threshold. -/
theorem run_count_in_period (clk : Nat) (ops : List CDA.Op) :
    ∀ (s0 : CDA × List Nat) (d : CDA) (log : List Nat), s0.1.count < clk / 25 →
      CDA.smallSteps clk ops = true → CDA.run s0 ops = .ok (d, log) →
      d.count < clk / 25 := by
  induction ops with
  | nil =>
    intro s0 d log h0 _ hrun
    have e := Except.ok.inj hrun
    subst e
    exact h0
  | cons op rest ih =>
    intro s0 d log h0 hsmall hrun
    rw [smallSteps_cons, Bool.and_eq_true] at hsmall
    cases hstep : CDA.step s0 op with
    | error e =>
      rw [run_error rest hstep] at hrun
      cases hrun
    | ok s1 =>
      rw [run_cons_ok rest hstep] at hrun
      refine ih s1 d log ?_ hsmall.2 hrun
      cases op with
      | tick c n =>
        have hcn : c = clk ∧ n ≤ clk / VSYNC := of_decide_eq_true hsmall.1
        have e := Except.ok.inj hstep
        subst e
        obtain ⟨hc, hn⟩ := hcn
        subst hc
        exact Tick_count_in_period s0.1 { clock := c, interrupts := s0.2 } n h0 hn
      | vramRB addr =>
        rw [step_count hstep (fun _ _ hc => CDA.Op.noConfusion hc)]
        exact h0
      | vramWB addr val =>
        rw [step_count hstep (fun _ _ hc => CDA.Op.noConfusion hc)]
        exact h0
      | setupRB addr =>
        rw [step_count hstep (fun _ _ hc => CDA.Op.noConfusion hc)]
        exact h0
      | setupWB addr val =>
        rw [step_count hstep (fun _ _ hc => CDA.Op.noConfusion hc)]
        exact h0

/-- From a state whose three flags are clear: after any run they are clear and no
interrupt has been added to the log. -/
theorem run_flags (ops : List CDA.Op) :
    ∀ (s0 : CDA × List Nat) (d : CDA) (log : List Nat),
      s0.1.blink = false → s0.1.userfont = false → s0.1.e_vsync = false →
      CDA.run s0 ops = .ok (d, log) →
      d.blink = false ∧ d.userfont = false ∧ d.e_vsync = false ∧ log = s0.2 := by
  induction ops with
  | nil =>
    intro s0 d log hb hu he hrun
    have e := Except.ok.inj hrun
    subst e
    exact ⟨hb, hu, he, rfl⟩
  | cons op rest ih =>
    intro s0 d log hb hu he hrun
    cases hstep : CDA.step s0 op with
    | error e =>
      rw [run_error rest hstep] at hrun
      cases hrun
    | ok s1 =>
      rw [run_cons_ok rest hstep] at hrun
      obtain ⟨f1, f2, f3, f4⟩ := step_flags hstep
      have r := ih s1 d log (by rw [f1, hb]) (by rw [f2, hu]) (by rw [f3, he]) hrun
      rw [f4 he] at r
      exact r

/-! ## The windows of the four slots -/

theorem new_windows (s : Fin 4) (reg0 : Nat) :
    (CDA.new s reg0).vram.begin = 0xFF0A0000 + 0x10000 * s ∧
    (CDA.new s reg0).vram.size = 0x4400 ∧
    (CDA.new s reg0).setupr.begin = 0xFF0ACC00 + 0x10000 * s ∧
    (CDA.new s reg0).setupr.size = 1 := by
  fin_cases s <;> exact ⟨rfl, rfl, rfl, rfl⟩

theorem WF_window {d : CDA} (hwf : d.WF) :
    0xFF0A0000 ≤ d.vram.begin ∧ d.vram.begin + 0x10000 ≤ 2 ^ 32 ∧ d.vram.size = 0x4400 ∧
    d.vram.vram.length = 0x4400 := by
  obtain ⟨hb, hs, hv, -, -, -⟩ := hwf
  rw [hb]
  exact ⟨BASE_ADDR_ge d.jmp1, BASE_ADDR_lt d.jmp1, hs, hv⟩

/-! ## The claims -/

/-- C1. Register decode: for every byte `v`, every address and every device state,
`SETUPreg::WB(addr, v)` returns and leaves the device with `VideoMode() = v & 3` and
`isTextMode() = ((v & 4) == 0)`, whatever the mode was before. -/
theorem C1_setup_write_decodes (d : CDA) (addr v : Nat) (hv : v < 256) :
    ∃ d1, CDA.SETUPreg.WB d addr v = .ok d1 ∧
      d1.VideoMode = v &&& 3 ∧ d1.isTextMode = decide (v &&& 4 = 0) := by
  refine ⟨_, rfl, ?_, ?_⟩ <;>
    simp [CDA.VideoMode, CDA.isTextMode, Nat.mod_eq_of_lt hv]

theorem C1_setup_write_decodes_witness :
    6 < 256 ∧
    ∃ d1, CDA.SETUPreg.WB (CDA.new 2 0) 0xFF0CCC00 6 = .ok d1 ∧
      d1.VideoMode = 6 &&& 3 ∧ d1.isTextMode = decide (6 &&& 4 = 0) :=
  ⟨by decide, C1_setup_write_decodes (CDA.new 2 0) 0xFF0CCC00 6 (by decide)⟩

/-- C2. Snapshot timing: with clock 360000 Hz the threshold `clock / VSYNC` is 14400,
and for every slot, every live-buffer content and every starting counter below
14400, one call `Tick(cpu, 14400)` on a device whose vsync interrupt is enabled
throws exactly one interrupt, with message `INT_MSG[slot]`, and leaves the exposed
buffer `VRAM()` equal, over all 0x4400 bytes, to the live buffer at the time of the
call. -/
theorem C2_snapshot_timing (d : CDA) (cpu : RC3200) (hwf : d.WF)
    (hclk : cpu.Clock = 360000) (hc : d.count < 14400) (he : d.e_vsync = true) :
    cpu.Clock / VSYNC = 14400 ∧
    (CDA.Tick d cpu 14400).2.interrupts =
      cpu.interrupts ++ [INT_MSG.getD (d.jmp1 &&& 3) 0] ∧
    (CDA.Tick d cpu 14400).1.VRAM = d.vram.vram ∧
    (CDA.Tick d cpu 14400).1.VRAM.length = 0x4400 := by
  obtain ⟨-, -, hv, -, -, ho⟩ := hwf
  have ht : cpu.Clock / VSYNC = 14400 := by rw [hclk]; rfl
  have hx : cpu.Clock / VSYNC ≤ add32 d.count 14400 := by
    rw [ht]; unfold add32; omega
  rw [Tick_cross hx]
  refine ⟨ht, ?_, ?_, ?_⟩
  · simp only [he, if_true]
    exact ThrowInterrupt_INT_MSG cpu d.jmp1
  · exact copy_n_full hv ho
  · show (copy_n d.vram.vram VRAM_SIZE d.obuffer).length = 0x4400
    rw [copy_n_full hv ho, hv]
    rfl

theorem C2_snapshot_timing_witness :
    ({ CDA.new 2 0 with count := 7, e_vsync := true } : CDA).WF ∧
    ({ clock := 360000, interrupts := [] } : RC3200).Clock = 360000 ∧
    ({ CDA.new 2 0 with count := 7, e_vsync := true } : CDA).count < 14400 ∧
    ({ CDA.new 2 0 with count := 7, e_vsync := true } : CDA).e_vsync = true ∧
    ({ clock := 360000, interrupts := [] } : RC3200).Clock / VSYNC = 14400 ∧
    (CDA.Tick { CDA.new 2 0 with count := 7, e_vsync := true }
        { clock := 360000, interrupts := [] } 14400).2.interrupts =
      ({ clock := 360000, interrupts := [] } : RC3200).interrupts ++
        [INT_MSG.getD (({ CDA.new 2 0 with count := 7, e_vsync := true } : CDA).jmp1 &&& 3) 0] ∧
    (CDA.Tick { CDA.new 2 0 with count := 7, e_vsync := true }
        { clock := 360000, interrupts := [] } 14400).1.VRAM =
      ({ CDA.new 2 0 with count := 7, e_vsync := true } : CDA).vram.vram ∧
    (CDA.Tick { CDA.new 2 0 with count := 7, e_vsync := true }
        { clock := 360000, interrupts := [] } 14400).1.VRAM.length = 0x4400 :=
  ⟨WF_new 2 0, rfl, by decide, rfl,
    C2_snapshot_timing { CDA.new 2 0 with count := 7, e_vsync := true }
      { clock := 360000, interrupts := [] } (WF_new 2 0) rfl (by decide) rfl⟩

/-- C3. Counter update of `Tick`: with threshold `t = clk / 25` and
`s = (c + n) mod 2^32`, the counter after `Tick` is `s - t` when `s >= t` and `s` when
`s < t`; in the crossing case it is zero only when `s = t`, so the remainder `s - t`
is carried into the next period. It holds of all naturals `c`, `n`, `clk`, the 32-bit
ones among them. -/
theorem C3_counter_update (d : CDA) (cpu : RC3200) (n : Nat) :
    (CDA.Tick d cpu n).1.count =
      (if (d.count + n) % 2 ^ 32 ≥ cpu.Clock / 25
        then (d.count + n) % 2 ^ 32 - cpu.Clock / 25
        else (d.count + n) % 2 ^ 32) ∧
    ((d.count + n) % 2 ^ 32 ≥ cpu.Clock / 25 →
      ((CDA.Tick d cpu n).1.count = 0 ↔ (d.count + n) % 2 ^ 32 = cpu.Clock / 25)) := by
  have hs : (d.count + n) % 2 ^ 32 < 2 ^ 32 := Nat.mod_lt _ (by decide)
  by_cases h : cpu.Clock / VSYNC ≤ add32 d.count n
  · have h1 : cpu.Clock / 25 ≤ (d.count + n) % 2 ^ 32 := h
    rw [Tick_cross h]
    have e : sub32 (add32 d.count n) (cpu.Clock / VSYNC) =
        (d.count + n) % 2 ^ 32 - cpu.Clock / 25 := sub32_of_le h hs
    refine ⟨?_, fun _ => ?_⟩
    · rw [if_pos h1]
      exact e
    · show sub32 (add32 d.count n) (cpu.Clock / VSYNC) = 0 ↔ _
      rw [e]
      omega
  · have h1 : ¬ cpu.Clock / 25 ≤ (d.count + n) % 2 ^ 32 := h
    rw [Tick_no_cross h]
    refine ⟨?_, fun h2 => absurd h2 h1⟩
    rw [if_neg h1]
    rfl

/-- C4, as stated, fails: from counter 0 with clock 360000 (threshold 14400) and
`e_vsync` set, the calls `Tick(14400)`, `Tick(14400)` make two snapshots and throw two
interrupts, the single call `Tick(28800)` one of each. -/
theorem C4_additivity_fails :
    CDA.tickCrossings { CDA.new 0 0 with e_vsync := true }
        { clock := 360000, interrupts := [] } [14400, 14400] = 2 ∧
    CDA.tickCrossings { CDA.new 0 0 with e_vsync := true }
        { clock := 360000, interrupts := [] } [List.sum [14400, 14400]] = 1 ∧
    CDA.tickInterrupts { CDA.new 0 0 with e_vsync := true }
        { clock := 360000, interrupts := [] } [14400, 14400] = 2 ∧
    CDA.tickInterrupts { CDA.new 0 0 with e_vsync := true }
        { clock := 360000, interrupts := [] } [List.sum [14400, 14400]] = 1 := by
  refine ⟨?_, ?_, ?_, ?_⟩ <;> decide

/-- C4, amended. Additivity of `Tick` within two periods: for every starting counter
`c`, every 32-bit clock value with threshold `t = clock / 25` and every non-empty
sequence of steps with sum `N` such that `c + N < 2 * t`, the number of snapshot
copies and the number of interrupts thrown by the calls `Tick(n1)`, ..., `Tick(nk)`
equal those of the single call `Tick(N)` from the same state. -/
theorem C4_additivity_within_two_periods (d : CDA) (cpu : RC3200) (ns : List Nat)
    (hclk : cpu.Clock < 2 ^ 32) (hne : ns ≠ [])
    (hN : d.count + ns.sum < 2 * (cpu.Clock / 25)) :
    CDA.tickCrossings d cpu ns = CDA.tickCrossings d cpu [ns.sum] ∧
    CDA.tickInterrupts d cpu ns = CDA.tickInterrupts d cpu [ns.sum] := by
  have hcross : CDA.tickCrossings d cpu ns = CDA.tickCrossings d cpu [ns.sum] := by
    have hN1 : d.count + [ns.sum].sum < 2 * (cpu.Clock / 25) := by
      rw [List.sum_cons, List.sum_nil, Nat.add_zero]
      exact hN
    by_cases h0 : d.count < cpu.Clock / 25
    · rw [tickCrossings_in_phase ns d cpu hclk h0 hN,
        tickCrossings_in_phase [ns.sum] d cpu hclk h0 hN1, List.sum_cons, List.sum_nil,
        Nat.add_zero]
    · obtain ⟨n, rest, rfl⟩ := List.exists_cons_of_ne_nil hne
      rw [List.sum_cons] at hN
      have hadd : add32 d.count n = d.count + n := by
        unfold add32
        omega
      have haddN : add32 d.count (n :: rest).sum = d.count + (n + rest.sum) := by
        rw [List.sum_cons]
        unfold add32
        omega
      have hx : cpu.Clock / 25 ≤ add32 d.count n := by omega
      have hxN : cpu.Clock / 25 ≤ add32 d.count (n :: rest).sum := by omega
      have hcnt := Tick_count d cpu n
      rw [if_pos hx, hadd, sub32_of_le (by omega) (by omega)] at hcnt
      have hrest := tickCrossings_in_phase rest (CDA.Tick d cpu n).1 (CDA.Tick d cpu n).2
      rw [Tick_Clock] at hrest
      rw [tickCrossings_cons, tickCrossings_cons, if_pos ((vsyncEvent_iff d cpu n).2 hx),
        if_pos ((vsyncEvent_iff d cpu _).2 hxN), hrest hclk (by omega) (by omega),
        if_neg (by omega)]
      rfl
  refine ⟨hcross, ?_⟩
  rw [tickInterrupts_eq, tickInterrupts_eq, hcross]

theorem C4_additivity_within_two_periods_witness :
    ({ clock := 360000, interrupts := [] } : RC3200).Clock < 2 ^ 32 ∧
    [6000, 6000, 6000] ≠ ([] : List Nat) ∧
    ({ CDA.new 0 0 with e_vsync := true } : CDA).count + [6000, 6000, 6000].sum <
      2 * (({ clock := 360000, interrupts := [] } : RC3200).Clock / 25) ∧
    CDA.tickCrossings { CDA.new 0 0 with e_vsync := true }
        { clock := 360000, interrupts := [] } [6000, 6000, 6000] =
      CDA.tickCrossings { CDA.new 0 0 with e_vsync := true }
        { clock := 360000, interrupts := [] } [[6000, 6000, 6000].sum] ∧
    CDA.tickInterrupts { CDA.new 0 0 with e_vsync := true }
        { clock := 360000, interrupts := [] } [6000, 6000, 6000] =
      CDA.tickInterrupts { CDA.new 0 0 with e_vsync := true }
        { clock := 360000, interrupts := [] } [[6000, 6000, 6000].sum] :=
  ⟨by decide, by decide, by decide,
    C4_additivity_within_two_periods { CDA.new 0 0 with e_vsync := true }
      { clock := 360000, interrupts := [] } [6000, 6000, 6000] (by decide) (by decide)
      (by decide)⟩

/-- C5. Bounds rejection, on the code: the SETUPreg handler of a fresh slot 0 device
has the window `begin = 0xFF0ACC00`, `size = 1`, yet `SETUPreg::WB` at `begin - 1`
returns without a fault and stores the byte and a new mode, and `SETUPreg::RB` at
`begin + size` returns the register byte; neither call ends in an addressing
error. -/
theorem C5_setup_accepts_outside_window :
    (CDA.new 0 0).setupr.begin = 0xFF0ACC00 ∧ (CDA.new 0 0).setupr.size = 1 ∧
    (CDA.new 0 0).VideoMode = 0 ∧ (CDA.new 0 0).isTextMode = true ∧
    (∃ d1, CDA.SETUPreg.WB (CDA.new 0 0) 0xFF0ACBFF 7 = .ok d1 ∧
      d1.setupr.reg = 7 ∧ d1.VideoMode = 3 ∧ d1.isTextMode = false) ∧
    CDA.SETUPreg.RB (CDA.new 0 0) 0xFF0ACC01 = .ok (0, CDA.new 0 0) ∧
    CDA.SETUPreg.RB (CDA.new 0 0) 0xFF0ACBFF = .ok (0, CDA.new 0 0) ∧
    (∃ d1, CDA.SETUPreg.WB (CDA.new 0 0) 0xFF0ACC01 7 = .ok d1 ∧
      d1.setupr.reg = 7 ∧ d1.VideoMode = 3 ∧ d1.isTextMode = false) := by
  refine ⟨rfl, rfl, rfl, rfl, ⟨_, rfl, ?_, ?_, ?_⟩, rfl, rfl, ⟨_, rfl, ?_, ?_, ?_⟩⟩ <;> decide

/-- C6. Buffer fidelity: for every slot, every offset `k` below 0x4400 and every byte
`val`, `VideoRAM::WB(begin + k, val)` succeeds, and the following
`VideoRAM::RB(begin + k)` succeeds and returns `val`. -/
theorem C6_buffer_fidelity (d : CDA) (k val : Nat) (hwf : d.WF) (hk : k < 0x4400)
    (hval : val < 256) :
    d.vram.begin = BASE_ADDR.getD (d.jmp1 &&& 3) 0 ∧
    ∃ d1, CDA.VideoRAM.WB d (d.vram.begin + k) val = .ok d1 ∧
      CDA.VideoRAM.RB d1 (d.vram.begin + k) = .ok (val, d1) := by
  obtain ⟨hb, hs, hv, -, -, -⟩ := hwf
  have e : sub32 (d.vram.begin + k) d.vram.begin = k := sub32_window d.vram.begin hk
  have hlt : sub32 (d.vram.begin + k) d.vram.begin < d.vram.size := by
    rw [e, hs]
    exact hk
  refine ⟨hb, _, VideoRAM_WB_ok val hlt, ?_⟩
  rw [VideoRAM_RB_ok (by exact hlt)]
  have hk1 : k < d.vram.vram.length := by
    rw [hv]
    exact hk
  simp [e, hk1, Nat.mod_eq_of_lt hval]

theorem C6_buffer_fidelity_witness :
    (CDA.new 3 0).WF ∧ 0x43FF < 0x4400 ∧ 0xC3 < 256 ∧
    (CDA.new 3 0).vram.begin = BASE_ADDR.getD ((CDA.new 3 0).jmp1 &&& 3) 0 ∧
    ∃ d1, CDA.VideoRAM.WB (CDA.new 3 0) ((CDA.new 3 0).vram.begin + 0x43FF) 0xC3 = .ok d1 ∧
      CDA.VideoRAM.RB d1 ((CDA.new 3 0).vram.begin + 0x43FF) = .ok (0xC3, d1) :=
  ⟨WF_new 3 0, by decide, by decide,
    C6_buffer_fidelity (CDA.new 3 0) 0x43FF 0xC3 (WF_new 3 0) (by decide) (by decide)⟩

/-- C7. Interrupt condition: a call to `Tick` throws an interrupt if and only if the
flag `e_vsync` is set and the advanced counter, `count + n` in 32-bit unsigned
arithmetic, reaches the threshold `clock / 25`; when it throws, it throws once and
the message is `INT_MSG[slot]`, that is 0x0000005A, 0x0000105A, 0x0000205A,
0x0000305A for the slots 0, 1, 2, 3. -/
theorem C7_interrupt_condition (d : CDA) (cpu : RC3200) (n : Nat) :
    (CDA.Tick d cpu n).2.interrupts =
      (if d.e_vsync = true ∧ (d.count + n) % 2 ^ 32 ≥ cpu.Clock / 25
        then cpu.interrupts ++ [INT_MSG.getD (d.jmp1 &&& 3) 0]
        else cpu.interrupts) ∧
    ((CDA.Tick d cpu n).2.interrupts ≠ cpu.interrupts ↔
      (d.e_vsync = true ∧ (d.count + n) % 2 ^ 32 ≥ cpu.Clock / 25)) ∧
    INT_MSG.getD 0 0 = 0x0000005A ∧ INT_MSG.getD 1 0 = 0x0000105A ∧
    INT_MSG.getD 2 0 = 0x0000205A ∧ INT_MSG.getD 3 0 = 0x0000305A := by
  have key : (CDA.Tick d cpu n).2.interrupts =
      (if d.e_vsync = true ∧ (d.count + n) % 2 ^ 32 ≥ cpu.Clock / 25
        then cpu.interrupts ++ [INT_MSG.getD (d.jmp1 &&& 3) 0]
        else cpu.interrupts) := by
    by_cases h : cpu.Clock / VSYNC ≤ add32 d.count n
    · have h1 : cpu.Clock / 25 ≤ (d.count + n) % 2 ^ 32 := h
      rw [Tick_cross h]
      by_cases he : d.e_vsync = true
      · rw [if_pos he, if_pos ⟨he, h1⟩]
        exact ThrowInterrupt_INT_MSG cpu d.jmp1
      · rw [if_neg he, if_neg (fun hc => he hc.1)]
    · have h1 : ¬ cpu.Clock / 25 ≤ (d.count + n) % 2 ^ 32 := h
      rw [Tick_no_cross h, if_neg (fun hc => h1 hc.2)]
  refine ⟨key, ?_, rfl, rfl, rfl, rfl⟩
  rw [key]
  by_cases hc : d.e_vsync = true ∧ (d.count + n) % 2 ^ 32 ≥ cpu.Clock / 25
  · rw [if_pos hc]
    exact ⟨fun _ => hc, fun _ => by simp⟩
  · rw [if_neg hc]
    exact ⟨fun h => absurd rfl h, fun h => absurd h hc⟩

/-- C8. Snapshot invariant: in every state reached from a freshly constructed device
by a sequence of `Tick` calls and VideoRAM and SETUPreg accesses, the exposed buffer
`VRAM()` is all zero when no `Tick` of the sequence has crossed the threshold, and
otherwise equals the live buffer as it was at the most recent `Tick` that crossed
it: the sequence splits around that `Tick`, no call after it crosses, and the exposed
buffer is the live buffer of the state the `Tick` was called in. -/
theorem C8_snapshot_invariant (jmp1 reg0 : Nat) (ops : List CDA.Op) (d : CDA)
    (log : List Nat) (hrun : CDA.run (CDA.new jmp1 reg0, []) ops = .ok (d, log)) :
    (CDA.crossCount (CDA.new jmp1 reg0, []) ops = 0 ∧
      d.VRAM = List.replicate 0x4400 0) ∨
    (∃ pre clk n post d1 log1,
      ops = pre ++ CDA.Op.tick clk n :: post ∧
      CDA.run (CDA.new jmp1 reg0, []) pre = .ok (d1, log1) ∧
      CDA.vsyncEvent d1 { clock := clk, interrupts := log1 } n = true ∧
      CDA.crossCount
        ((CDA.Tick d1 { clock := clk, interrupts := log1 } n).1,
          (CDA.Tick d1 { clock := clk, interrupts := log1 } n).2.interrupts) post = 0 ∧
      d.VRAM = d1.vram.vram) :=
  run_obuffer ops (CDA.new jmp1 reg0, []) d log (WF_new jmp1 reg0) hrun

theorem C8_snapshot_invariant_witness :
    CDA.run (CDA.new 0 0, [])
        [CDA.Op.vramWB 0xFF0A0000 0x41, CDA.Op.tick 360000 14400,
          CDA.Op.vramWB 0xFF0A0001 0x42] =
      .ok ({ CDA.new 0 0 with
              vram := { CDA.VideoRAM.new 0 with
                vram := ((List.replicate VRAM_SIZE 0).set 0 0x41).set 1 0x42 }
              obuffer := copy_n ((List.replicate VRAM_SIZE 0).set 0 0x41) VRAM_SIZE
                (List.replicate VRAM_SIZE 0) }, []) ∧
    ((CDA.crossCount (CDA.new 0 0, [])
        [CDA.Op.vramWB 0xFF0A0000 0x41, CDA.Op.tick 360000 14400,
          CDA.Op.vramWB 0xFF0A0001 0x42] = 0 ∧
      ({ CDA.new 0 0 with
          vram := { CDA.VideoRAM.new 0 with
            vram := ((List.replicate VRAM_SIZE 0).set 0 0x41).set 1 0x42 }
          obuffer := copy_n ((List.replicate VRAM_SIZE 0).set 0 0x41) VRAM_SIZE
            (List.replicate VRAM_SIZE 0) } : CDA).VRAM = List.replicate 0x4400 0) ∨
    (∃ pre clk n post d1 log1,
      [CDA.Op.vramWB 0xFF0A0000 0x41, CDA.Op.tick 360000 14400,
          CDA.Op.vramWB 0xFF0A0001 0x42] = pre ++ CDA.Op.tick clk n :: post ∧
      CDA.run (CDA.new 0 0, []) pre = .ok (d1, log1) ∧
      CDA.vsyncEvent d1 { clock := clk, interrupts := log1 } n = true ∧
      CDA.crossCount
        ((CDA.Tick d1 { clock := clk, interrupts := log1 } n).1,
          (CDA.Tick d1 { clock := clk, interrupts := log1 } n).2.interrupts) post = 0 ∧
      ({ CDA.new 0 0 with
          vram := { CDA.VideoRAM.new 0 with
            vram := ((List.replicate VRAM_SIZE 0).set 0 0x41).set 1 0x42 }
          obuffer := copy_n ((List.replicate VRAM_SIZE 0).set 0 0x41) VRAM_SIZE
            (List.replicate VRAM_SIZE 0) } : CDA).VRAM = d1.vram.vram)) :=
  ⟨rfl, C8_snapshot_invariant 0 0
    [CDA.Op.vramWB 0xFF0A0000 0x41, CDA.Op.tick 360000 14400, CDA.Op.vramWB 0xFF0A0001 0x42]
    _ [] rfl⟩

/-- C9. Slot addressing: for every slot `s` in 0..3 the VideoRAM region has
`begin = BASE_ADDR[s]` (0xFF0A0000, 0xFF0B0000, 0xFF0C0000, 0xFF0D0000) and size
0x4400, the SETUPreg region has `begin = BASE_ADDR[s] + 0xCC00` and size 1, and the
interrupt message is `INT_MSG[s]`; slot 2 gives video base 0xFF0C0000, setup address
0xFF0CCC00 and message 0x0000205A. -/
theorem C9_slot_addressing (s : Fin 4) (reg0 : Nat) :
    (CDA.new s reg0).vram.begin = BASE_ADDR.getD s 0 ∧
    (CDA.new s reg0).vram.size = 0x4400 ∧
    (CDA.new s reg0).setupr.begin = BASE_ADDR.getD s 0 + 0xCC00 ∧
    (CDA.new s reg0).setupr.size = 1 ∧
    INT_MSG.getD ((CDA.new s reg0).jmp1 &&& 3) 0 = INT_MSG.getD s 0 ∧
    BASE_ADDR.getD s 0 = 0xFF0A0000 + 0x10000 * s ∧
    (CDA.new 2 reg0).vram.begin = 0xFF0C0000 ∧
    (CDA.new 2 reg0).setupr.begin = 0xFF0CCC00 ∧
    INT_MSG.getD ((CDA.new 2 reg0).jmp1 &&& 3) 0 = 0x0000205A := by
  have h2 : INT_MSG.getD ((CDA.new 2 reg0).jmp1 &&& 3) 0 = 0x0000205A := by
    show INT_MSG.getD (2 &&& 3) 0 = 0x0000205A
    decide
  fin_cases s
  · exact ⟨rfl, rfl, rfl, rfl, by show INT_MSG.getD (0 &&& 3) 0 = _; decide, rfl, rfl, rfl, h2⟩
  · exact ⟨rfl, rfl, rfl, rfl, by show INT_MSG.getD (1 &&& 3) 0 = _; decide, rfl, rfl, rfl, h2⟩
  · exact ⟨rfl, rfl, rfl, rfl, by show INT_MSG.getD (2 &&& 3) 0 = _; decide, rfl, rfl, rfl, h2⟩
  · exact ⟨rfl, rfl, rfl, rfl, by show INT_MSG.getD (3 &&& 3) 0 = _; decide, rfl, rfl, rfl, h2⟩

/-- C10. Setup register read-back: for every byte `v` and every pair of addresses
`a`, `a1`, after `SETUPreg::WB(a, v)` a call `SETUPreg::RB(a1)` returns `v`; and `RB`
changes nothing: the device after `RB`, with its register value, video mode,
text-mode flag, counter and both buffers, is the device before it. -/
theorem C10_setup_read_back (d : CDA) (a a1 v : Nat) (hv : v < 256) :
    (∃ d1, CDA.SETUPreg.WB d a v = .ok d1 ∧ CDA.SETUPreg.RB d1 a1 = .ok (v, d1)) ∧
    CDA.SETUPreg.RB d a1 = .ok (d.setupr.reg, d) := by
  refine ⟨⟨_, rfl, ?_⟩, rfl⟩
  simp [CDA.SETUPreg.RB, Nat.mod_eq_of_lt hv]

theorem C10_setup_read_back_witness :
    0xA5 < 256 ∧
    (∃ d1, CDA.SETUPreg.WB (CDA.new 1 0) 0xFF0BCC00 0xA5 = .ok d1 ∧
      CDA.SETUPreg.RB d1 0xFF0BCC00 = .ok (0xA5, d1)) ∧
    CDA.SETUPreg.RB (CDA.new 1 0) 0xFF0BCC00 = .ok ((CDA.new 1 0).setupr.reg, CDA.new 1 0) :=
  ⟨by decide, C10_setup_read_back (CDA.new 1 0) 0xFF0BCC00 0xFF0BCC00 0xA5 (by decide)⟩

/-- C11. Buffer ownership: for every device state, a VideoRAM or SETUPreg read or
write leaves the exposed buffer unchanged, and a `Tick`, crossing the threshold or
not, a SETUPreg read or write and a VideoRAM read leave the live buffer unchanged;
a `Tick` that does not cross the threshold leaves the exposed buffer unchanged too.
So only `VideoRAM::WB` changes the live buffer and only a crossing `Tick` changes the
exposed buffer. -/
theorem C11_buffer_ownership (d : CDA) (cpu : RC3200) (addr val n : Nat) :
    (∀ r, CDA.VideoRAM.RB d addr = .ok r →
      r.2.VRAM = d.VRAM ∧ r.2.vram.vram = d.vram.vram) ∧
    (∀ d1, CDA.VideoRAM.WB d addr val = .ok d1 → d1.VRAM = d.VRAM) ∧
    (∃ r, CDA.SETUPreg.RB d addr = .ok r ∧
      r.2.VRAM = d.VRAM ∧ r.2.vram.vram = d.vram.vram) ∧
    (∃ d1, CDA.SETUPreg.WB d addr val = .ok d1 ∧
      d1.VRAM = d.VRAM ∧ d1.vram.vram = d.vram.vram) ∧
    (CDA.Tick d cpu n).1.vram.vram = d.vram.vram ∧
    (CDA.vsyncEvent d cpu n = false → (CDA.Tick d cpu n).1.VRAM = d.VRAM) := by
  refine ⟨fun r hr => ?_, fun d1 h1 => ?_, ⟨_, rfl, rfl, rfl⟩, ⟨_, rfl, rfl, rfl⟩, ?_,
    fun hv => ?_⟩
  · rw [VideoRAM_RB_frame hr]
    exact ⟨rfl, rfl⟩
  · rw [(VideoRAM_WB_eq h1).2]
    rfl
  · rw [(Tick_fields d cpu n).1]
  · exact Tick_obuffer_no_cross cpu n (by rw [hv]; exact Bool.noConfusion)

/-- C12. Mode and timing frame: for every device state, `Tick` and every VideoRAM
read or write leave `VideoMode()` and `isTextMode()` unchanged, as does a SETUPreg
read, and every region read or write, VideoRAM or SETUPreg, leaves the cycle counter
unchanged. So the mode changes only through `SETUPreg::WB` and the counter only
through `Tick`. -/
theorem C12_mode_and_timing_frame (d : CDA) (cpu : RC3200) (addr val n : Nat) :
    ((CDA.Tick d cpu n).1.VideoMode = d.VideoMode ∧
      (CDA.Tick d cpu n).1.isTextMode = d.isTextMode) ∧
    (∀ r, CDA.VideoRAM.RB d addr = .ok r →
      r.2.VideoMode = d.VideoMode ∧ r.2.isTextMode = d.isTextMode ∧ r.2.count = d.count) ∧
    (∀ d1, CDA.VideoRAM.WB d addr val = .ok d1 →
      d1.VideoMode = d.VideoMode ∧ d1.isTextMode = d.isTextMode ∧ d1.count = d.count) ∧
    (∃ r, CDA.SETUPreg.RB d addr = .ok r ∧
      r.2.VideoMode = d.VideoMode ∧ r.2.isTextMode = d.isTextMode ∧ r.2.count = d.count) ∧
    (∃ d1, CDA.SETUPreg.WB d addr val = .ok d1 ∧ d1.count = d.count) := by
  refine ⟨⟨(Tick_fields d cpu n).2.2.1, (Tick_fields d cpu n).2.2.2.1⟩, fun r hr => ?_,
    fun d1 h1 => ?_, ⟨_, rfl, rfl, rfl, rfl⟩, ⟨_, rfl, rfl⟩⟩
  · rw [VideoRAM_RB_frame hr]
    exact ⟨rfl, rfl, rfl⟩
  · rw [(VideoRAM_WB_eq h1).2]
    exact ⟨rfl, rfl, rfl⟩

/-- C13. Initial state: a freshly constructed device has `VideoMode() = 0`,
`isTextMode() = true`, `isBlinkAttr() = false`, `isUserFont() = false`, the vsync
interrupt disabled, cycle counter 0, and the live buffer and the exposed buffer both
hold 0x4400 zero bytes. -/
theorem C13_initial_state (jmp1 reg0 : Nat) :
    (CDA.new jmp1 reg0).VideoMode = 0 ∧
    (CDA.new jmp1 reg0).isTextMode = true ∧
    (CDA.new jmp1 reg0).isBlinkAttr = false ∧
    (CDA.new jmp1 reg0).isUserFont = false ∧
    (CDA.new jmp1 reg0).e_vsync = false ∧
    (CDA.new jmp1 reg0).count = 0 ∧
    (CDA.new jmp1 reg0).vram.vram = List.replicate 0x4400 0 ∧
    (CDA.new jmp1 reg0).VRAM = List.replicate 0x4400 0 :=
  ⟨rfl, rfl, rfl, rfl, rfl, rfl, rfl, rfl⟩

/-- C14. No address conflicts: over all slots `s`, `t` in 0..3, no window published by
a device wraps past `2^32`, the VideoRAM window and the SETUPreg window of one slot
share no address, and when `s` and `t` differ no window of slot `s` shares an address
with a window of slot `t`. -/
theorem C14_no_address_conflicts (s t : Fin 4) (r0 r1 addr : Nat) :
    (CDA.new s r0).vram.begin + (CDA.new s r0).vram.size ≤ 2 ^ 32 ∧
    (CDA.new s r0).setupr.begin + (CDA.new s r0).setupr.size ≤ 2 ^ 32 ∧
    ¬ (CDA.inWindow (CDA.new s r0).vram.begin (CDA.new s r0).vram.size addr ∧
        CDA.inWindow (CDA.new s r0).setupr.begin (CDA.new s r0).setupr.size addr) ∧
    (s ≠ t →
      ¬ (CDA.inWindow (CDA.new s r0).vram.begin (CDA.new s r0).vram.size addr ∧
          CDA.inWindow (CDA.new t r1).vram.begin (CDA.new t r1).vram.size addr) ∧
      ¬ (CDA.inWindow (CDA.new s r0).vram.begin (CDA.new s r0).vram.size addr ∧
          CDA.inWindow (CDA.new t r1).setupr.begin (CDA.new t r1).setupr.size addr) ∧
      ¬ (CDA.inWindow (CDA.new s r0).setupr.begin (CDA.new s r0).setupr.size addr ∧
          CDA.inWindow (CDA.new t r1).vram.begin (CDA.new t r1).vram.size addr) ∧
      ¬ (CDA.inWindow (CDA.new s r0).setupr.begin (CDA.new s r0).setupr.size addr ∧
          CDA.inWindow (CDA.new t r1).setupr.begin (CDA.new t r1).setupr.size addr)) := by
  obtain ⟨a1, a2, a3, a4⟩ := new_windows s r0
  obtain ⟨b1, b2, b3, b4⟩ := new_windows t r1
  rw [a1, a2, a3, a4, b1, b2, b3, b4]
  have hs := s.isLt
  have ht := t.isLt
  unfold CDA.inWindow
  refine ⟨by omega, by omega, by omega, fun hne => ?_⟩
  have hne1 : (s : Nat) ≠ t := fun h => hne (Fin.ext h)
  refine ⟨?_, ?_, ?_, ?_⟩ <;> omega

/-- C16. The bounds check of VideoRAM, computed with 32-bit wrapping subtraction,
decides the window: for every slot and every 32-bit address `addr` the assertion of
`VideoRAM::RB` and `VideoRAM::WB`, `((addr - begin) mod 2^32) < size`, passes if and
only if `begin <= addr < begin + size`, the calls return exactly then, and the byte
read or written is the one at index `addr - begin`. -/
theorem C16_bounds_check_is_window (d : CDA) (addr val : Nat) (hwf : d.WF)
    (ha : addr < 2 ^ 32) :
    (sub32 addr d.vram.begin < d.vram.size ↔
      CDA.inWindow d.vram.begin d.vram.size addr) ∧
    ((∃ r, CDA.VideoRAM.RB d addr = .ok r) ↔
      CDA.inWindow d.vram.begin d.vram.size addr) ∧
    ((∃ d1, CDA.VideoRAM.WB d addr val = .ok d1) ↔
      CDA.inWindow d.vram.begin d.vram.size addr) ∧
    (CDA.inWindow d.vram.begin d.vram.size addr →
      CDA.VideoRAM.RB d addr = .ok (d.vram.vram.getD (addr - d.vram.begin) 0, d) ∧
      CDA.VideoRAM.WB d addr val =
        .ok { d with vram := { d.vram with
                vram := d.vram.vram.set (addr - d.vram.begin) (val % 256) } }) := by
  obtain ⟨h1, h2, h3, -⟩ := WF_window hwf
  have key : sub32 addr d.vram.begin < d.vram.size ↔
      CDA.inWindow d.vram.begin d.vram.size addr := by
    rw [h3]
    unfold sub32 CDA.inWindow
    omega
  have hidx : CDA.inWindow d.vram.begin d.vram.size addr →
      sub32 addr d.vram.begin = addr - d.vram.begin := fun hw =>
    sub32_of_le hw.1 ha
  refine ⟨key, ⟨fun ⟨r, hr⟩ => ?_, fun hw => ?_⟩, ⟨fun ⟨d1, h⟩ => ?_, fun hw => ?_⟩,
    fun hw => ?_⟩
  · by_cases hlt : sub32 addr d.vram.begin < d.vram.size
    · exact key.1 hlt
    · rw [VideoRAM_RB_fault hlt] at hr
      cases hr
  · exact ⟨_, VideoRAM_RB_ok (key.2 hw)⟩
  · exact key.1 (VideoRAM_WB_eq h).1
  · exact ⟨_, VideoRAM_WB_ok val (key.2 hw)⟩
  · rw [VideoRAM_RB_ok (key.2 hw), VideoRAM_WB_ok val (key.2 hw), hidx hw]
    exact ⟨rfl, rfl⟩

theorem C16_bounds_check_is_window_witness :
    (CDA.new 1 0).WF ∧ 0xFF0B0010 < 2 ^ 32 ∧
    ((sub32 0xFF0B0010 (CDA.new 1 0).vram.begin < (CDA.new 1 0).vram.size ↔
      CDA.inWindow (CDA.new 1 0).vram.begin (CDA.new 1 0).vram.size 0xFF0B0010) ∧
    ((∃ r, CDA.VideoRAM.RB (CDA.new 1 0) 0xFF0B0010 = .ok r) ↔
      CDA.inWindow (CDA.new 1 0).vram.begin (CDA.new 1 0).vram.size 0xFF0B0010) ∧
    ((∃ d1, CDA.VideoRAM.WB (CDA.new 1 0) 0xFF0B0010 0x7E = .ok d1) ↔
      CDA.inWindow (CDA.new 1 0).vram.begin (CDA.new 1 0).vram.size 0xFF0B0010) ∧
    (CDA.inWindow (CDA.new 1 0).vram.begin (CDA.new 1 0).vram.size 0xFF0B0010 →
      CDA.VideoRAM.RB (CDA.new 1 0) 0xFF0B0010 =
        .ok ((CDA.new 1 0).vram.vram.getD (0xFF0B0010 - (CDA.new 1 0).vram.begin) 0,
          CDA.new 1 0) ∧
      CDA.VideoRAM.WB (CDA.new 1 0) 0xFF0B0010 0x7E =
        .ok { CDA.new 1 0 with vram := { (CDA.new 1 0).vram with
                vram := (CDA.new 1 0).vram.vram.set
                  (0xFF0B0010 - (CDA.new 1 0).vram.begin) (0x7E % 256) } })) :=
  ⟨WF_new 1 0, by decide,
    C16_bounds_check_is_window (CDA.new 1 0) 0xFF0B0010 0x7E (WF_new 1 0) (by decide)⟩

/-- C17. A VideoRAM write touches one byte only: for every pair of distinct offsets
`j`, `k` below 0x4400 and every byte `val`, `VideoRAM::RB(begin + j)` returns the same
byte after `VideoRAM::WB(begin + k, val)` as before it. -/
theorem C17_write_touches_one_byte (d : CDA) (j k val : Nat) (hwf : d.WF)
    (hj : j < 0x4400) (hk : k < 0x4400) (hjk : j ≠ k) :
    ∃ d1 b, CDA.VideoRAM.WB d (d.vram.begin + k) val = .ok d1 ∧
      CDA.VideoRAM.RB d (d.vram.begin + j) = .ok (b, d) ∧
      CDA.VideoRAM.RB d1 (d.vram.begin + j) = .ok (b, d1) := by
  obtain ⟨-, -, h3, -⟩ := WF_window hwf
  have ej : sub32 (d.vram.begin + j) d.vram.begin = j := sub32_window d.vram.begin hj
  have ek : sub32 (d.vram.begin + k) d.vram.begin = k := sub32_window d.vram.begin hk
  have hltj : sub32 (d.vram.begin + j) d.vram.begin < d.vram.size := by
    rw [ej, h3]
    exact hj
  have hltk : sub32 (d.vram.begin + k) d.vram.begin < d.vram.size := by
    rw [ek, h3]
    exact hk
  refine ⟨_, _, VideoRAM_WB_ok val hltk, VideoRAM_RB_ok hltj, ?_⟩
  rw [VideoRAM_RB_ok (by exact hltj)]
  have hne : k ≠ j := fun h => hjk h.symm
  simp [ej, ek, List.getD_eq_getElem?_getD, List.getElem?_set_ne hne]

theorem C17_write_touches_one_byte_witness :
    (CDA.new 0 0).WF ∧ 5 < 0x4400 ∧ 6 < 0x4400 ∧ 5 ≠ 6 ∧
    ∃ d1 b, CDA.VideoRAM.WB (CDA.new 0 0) ((CDA.new 0 0).vram.begin + 6) 0x99 = .ok d1 ∧
      CDA.VideoRAM.RB (CDA.new 0 0) ((CDA.new 0 0).vram.begin + 5) = .ok (b, CDA.new 0 0) ∧
      CDA.VideoRAM.RB d1 ((CDA.new 0 0).vram.begin + 5) = .ok (b, d1) :=
  ⟨WF_new 0 0, by decide, by decide, by decide,
    C17_write_touches_one_byte (CDA.new 0 0) 5 6 0x99 (WF_new 0 0) (by decide) (by decide)
      (by decide)⟩

/-- C18. The counter stays inside one period under small steps: for every clock value
with threshold `t = clock / 25 > 0`, if the counter is below `t` before `Tick` and the
step `n` is at most `t`, the counter is below `t` after `Tick`; hence from a fresh
device, under that fixed clock and steps never larger than `t`, the counter is below
`t` in every state reached by `Tick` calls and bus accesses, and, the clock being a
32-bit value, each such `Tick` crosses the threshold exactly when `count + n >= t`. -/
theorem C18_counter_in_period (clk : Nat) (ht : 0 < clk / 25) :
    (∀ (d : CDA) (log : List Nat) (n : Nat), d.count < clk / 25 → n ≤ clk / 25 →
      (CDA.Tick d { clock := clk, interrupts := log } n).1.count < clk / 25) ∧
    (∀ (jmp1 reg0 : Nat) (ops : List CDA.Op) (d : CDA) (log : List Nat),
      CDA.smallSteps clk ops = true →
      CDA.run (CDA.new jmp1 reg0, []) ops = .ok (d, log) → d.count < clk / 25) ∧
    (clk < 2 ^ 32 →
      ∀ (d : CDA) (log : List Nat) (n : Nat), d.count < clk / 25 → n ≤ clk / 25 →
        (CDA.vsyncEvent d { clock := clk, interrupts := log } n = true ↔
          clk / 25 ≤ d.count + n)) := by
  refine ⟨fun d log n hc hn => ?_, fun jmp1 reg0 ops d log hsmall hrun => ?_,
    fun h32 d log n hc hn => ?_⟩
  · exact Tick_count_in_period d { clock := clk, interrupts := log } n hc hn
  · exact run_count_in_period clk ops (CDA.new jmp1 reg0, []) d log ht hsmall hrun
  · rw [vsyncEvent_iff]
    have e : add32 d.count n = d.count + n := by
      unfold add32
      omega
    rw [e]
    rfl

theorem C18_counter_in_period_witness :
    0 < 360000 / 25 ∧
    ((∀ (d : CDA) (log : List Nat) (n : Nat), d.count < 360000 / 25 → n ≤ 360000 / 25 →
      (CDA.Tick d { clock := 360000, interrupts := log } n).1.count < 360000 / 25) ∧
    (∀ (jmp1 reg0 : Nat) (ops : List CDA.Op) (d : CDA) (log : List Nat),
      CDA.smallSteps 360000 ops = true →
      CDA.run (CDA.new jmp1 reg0, []) ops = .ok (d, log) → d.count < 360000 / 25) ∧
    (360000 < 2 ^ 32 →
      ∀ (d : CDA) (log : List Nat) (n : Nat), d.count < 360000 / 25 → n ≤ 360000 / 25 →
        (CDA.vsyncEvent d { clock := 360000, interrupts := log } n = true ↔
          360000 / 25 ≤ d.count + n))) :=
  ⟨by decide, C18_counter_in_period 360000 (by decide)⟩

/-- C19. The vsync interrupt never fires through the device's own operations: in
every state reached from a freshly constructed device by a sequence of `Tick` calls
and VideoRAM and SETUPreg reads and writes, the flags `blink`, `userfont` and
`e_vsync` are still false, and no `Tick` of the sequence has thrown an interrupt,
whatever the clocks and the steps. -/
theorem C19_vsync_never_fires (jmp1 reg0 : Nat) (ops : List CDA.Op) (d : CDA)
    (log : List Nat) (hrun : CDA.run (CDA.new jmp1 reg0, []) ops = .ok (d, log)) :
    d.isBlinkAttr = false ∧ d.isUserFont = false ∧ d.e_vsync = false ∧ log = [] :=
  run_flags ops (CDA.new jmp1 reg0, []) d log rfl rfl rfl hrun

theorem C19_vsync_never_fires_witness :
    CDA.run (CDA.new 0 0, [])
        [CDA.Op.setupWB 0xFF0ACC00 0xFF, CDA.Op.tick 360000 14400,
          CDA.Op.tick 360000 28800] =
      .ok ({ CDA.new 0 0 with
              count := 14400
              videomode := 3
              textmode := false
              setupr := { CDA.SETUPreg.new 0 0 with reg := 0xFF }
              obuffer := copy_n (List.replicate VRAM_SIZE 0) VRAM_SIZE
                (copy_n (List.replicate VRAM_SIZE 0) VRAM_SIZE
                  (List.replicate VRAM_SIZE 0)) }, []) ∧
    (({ CDA.new 0 0 with
          count := 14400
          videomode := 3
          textmode := false
          setupr := { CDA.SETUPreg.new 0 0 with reg := 0xFF }
          obuffer := copy_n (List.replicate VRAM_SIZE 0) VRAM_SIZE
            (copy_n (List.replicate VRAM_SIZE 0) VRAM_SIZE
              (List.replicate VRAM_SIZE 0)) } : CDA).isBlinkAttr = false ∧
      ({ CDA.new 0 0 with
          count := 14400
          videomode := 3
          textmode := false
          setupr := { CDA.SETUPreg.new 0 0 with reg := 0xFF }
          obuffer := copy_n (List.replicate VRAM_SIZE 0) VRAM_SIZE
            (copy_n (List.replicate VRAM_SIZE 0) VRAM_SIZE
              (List.replicate VRAM_SIZE 0)) } : CDA).isUserFont = false ∧
      ({ CDA.new 0 0 with
          count := 14400
          videomode := 3
          textmode := false
          setupr := { CDA.SETUPreg.new 0 0 with reg := 0xFF }
          obuffer := copy_n (List.replicate VRAM_SIZE 0) VRAM_SIZE
            (copy_n (List.replicate VRAM_SIZE 0) VRAM_SIZE
              (List.replicate VRAM_SIZE 0)) } : CDA).e_vsync = false ∧
      ([] : List Nat) = []) :=
  ⟨rfl, C19_vsync_never_fires 0 0
    [CDA.Op.setupWB 0xFF0ACC00 0xFF, CDA.Op.tick 360000 14400, CDA.Op.tick 360000 28800]
    _ [] rfl⟩

/-- C20. Zero threshold: the divisor `VSYNC` of `clock / VSYNC` is 25, never zero, and
for every clock value below 25 the threshold is 0, so every call to `Tick`, the call
with `n = 0` included, takes the crossing branch: it copies the live buffer into the
exposed buffer and leaves the counter equal to `(count + n) mod 2^32`. -/
theorem C20_zero_threshold (d : CDA) (cpu : RC3200) (n : Nat) (hwf : d.WF)
    (hclk : cpu.Clock < 25) :
    VSYNC ≠ 0 ∧
    cpu.Clock / VSYNC = 0 ∧
    CDA.vsyncEvent d cpu n = true ∧
    CDA.vsyncEvent d cpu 0 = true ∧
    (CDA.Tick d cpu n).1.VRAM = d.vram.vram ∧
    (CDA.Tick d cpu n).1.count = (d.count + n) % 2 ^ 32 := by
  have h0 : cpu.Clock / 25 = 0 := Nat.div_eq_of_lt hclk
  have hx : ∀ m, cpu.Clock / 25 ≤ add32 d.count m := fun m => by
    rw [h0]
    exact Nat.zero_le _
  refine ⟨by decide, h0, (vsyncEvent_iff d cpu n).2 (hx n), (vsyncEvent_iff d cpu 0).2 (hx 0),
    Tick_obuffer_cross cpu n hwf ((vsyncEvent_iff d cpu n).2 (hx n)), ?_⟩
  rw [Tick_count, if_pos (hx n), h0]
  unfold sub32 add32
  omega

theorem C20_zero_threshold_witness :
    (CDA.new 0 0).WF ∧ ({ clock := 24, interrupts := [] } : RC3200).Clock < 25 ∧
    (VSYNC ≠ 0 ∧
    ({ clock := 24, interrupts := [] } : RC3200).Clock / VSYNC = 0 ∧
    CDA.vsyncEvent (CDA.new 0 0) { clock := 24, interrupts := [] } 0 = true ∧
    CDA.vsyncEvent (CDA.new 0 0) { clock := 24, interrupts := [] } 0 = true ∧
    (CDA.Tick (CDA.new 0 0) { clock := 24, interrupts := [] } 0).1.VRAM =
      (CDA.new 0 0).vram.vram ∧
    (CDA.Tick (CDA.new 0 0) { clock := 24, interrupts := [] } 0).1.count =
      ((CDA.new 0 0).count + 0) % 2 ^ 32) :=
  ⟨WF_new 0 0, by decide,
    C20_zero_threshold (CDA.new 0 0) { clock := 24, interrupts := [] } 0 (WF_new 0 0)
      (by decide)⟩

end cda
end vm
